import Mathlib

/-!
Shallow embedding of `src/dynamo_items/__init__.py` (the `dynamo-items`
package): a thin object-mapping layer over DynamoDB.  Python values that can
appear as primary-key material are modelled by `PyVal`; the source's
`AllowedPrimaryKeyTypes = Union[str, int, float, bytes]` is modelled on the
`str`/`int` fragment, which is the fragment every claim exercises (float key
coercion is not shallowly embeddable, and bytes keys appear nowhere in the
claims).  Exceptions are modelled by `PyExc`, carrying only the exception
class (the message strings of the source are elided).  The DynamoDB client is
modelled as a finite map from composite `(pk, sk?)` keys to stored records.
-/

namespace DynamoItems

/-- Scalar key types a `Table` can declare (`str` and `int` fragment of
`AllowedPrimaryKeyTypes`). -/
inductive ScalarType : Type where
  | sStr : ScalarType
  | sInt : ScalarType
deriving DecidableEq, Repr

/-- A Python value usable as key material or as a record field value. -/
inductive PyVal : Type where
  | vStr : String → PyVal
  | vInt : Int → PyVal
deriving DecidableEq, Repr

/-- Python `str(value)` on the modelled value universe. -/
def pyStr : PyVal → String
  | .vStr s => s
  | .vInt n => toString n

/-- The scalar type of a value, as DynamoDB's client sees it. -/
def pyTypeOf : PyVal → ScalarType
  | .vStr _ => .sStr
  | .vInt _ => .sInt

/-- Exception classes raised by the source (messages elided):
`AttributeError` (unknown attribute / attribute access on `None`),
`TypeError` (optional attribute used as a key), `ValueError` (prefix requested
on a non-`str` table key, or a failed `int(...)` coercion), `IndexError`
(subscripting an empty string or empty field tuple), pydantic's
`ValidationError`, and the boto3 client's `ClientError`. -/
inductive PyExc : Type where
  | AttributeError : PyExc
  | TypeError : PyExc
  | ValueError : PyExc
  | IndexError : PyExc
  | ValidationError : PyExc
  | ClientError : PyExc
deriving DecidableEq, Repr

/-- Python type coercion `T(value)` as used by `Item._key_value`'s
non-prefix branch: `str(v)` always succeeds; `int(v)` parses a decimal
string literal or passes an int through, raising `ValueError` otherwise. -/
def pyCoerce : ScalarType → PyVal → Except PyExc PyVal
  | .sStr, v => .ok (.vStr (pyStr v))
  | .sInt, .vInt n => .ok (.vInt n)
  | .sInt, .vStr s =>
      match s.toInt? with
      | some n => .ok (.vInt n)
      | none => .error .ValueError

/-- How an `Optional[str]` field holding `None` renders inside an f-string:
`f"{x}"` prints `None` when `x is None`. -/
def optStr : Option String → String
  | some s => s
  | none => "None"

/-- First-match association lookup, modelling Python `dict` access (all the
dicts built by the source have pairwise-distinct keys). -/
def dlookup {α β : Type} [DecidableEq α] : List (α × β) → α → Option β
  | [], _ => none
  | (k, v) :: rest, key => if k = key then some v else dlookup rest key

/-- Python `d[k] = v`: overwrite the first (in a dict: only) binding of `k`
in place, else append — insertion order preserved, as for a Python dict. -/
def dictSet {α β : Type} [DecidableEq α] : List (α × β) → α → β → List (α × β)
  | [], k, v => [(k, v)]
  | (k0, v0) :: rest, k, v =>
      if k0 = k then (k, v) :: rest else (k0, v0) :: dictSet rest k v

/-- Python `d.update(u)`: fold `dictSet` over `u` left to right. -/
def dictUpdate {α β : Type} [DecidableEq α] (d u : List (α × β)) :
    List (α × β) :=
  u.foldl (fun acc p => dictSet acc p.1 p.2) d

/-- Mutable prefix registry held by a `Table`: `key_prefixes` maps the
registry key `f"{item}.{attr}"` to the assigned prefix, and
`key_prefix_names` is the set (`Table._key_prefix_names`) of prefixes already
issued.  Fresh entries are consed at the front; the source never inserts a
key twice. -/
structure TableState : Type where
  key_prefixes : List (String × String)
  key_prefix_names : List String
deriving DecidableEq, Repr

/-- A freshly constructed `Table`'s registry: empty dict, empty set. -/
def TableState.empty : TableState := ⟨[], []⟩

/-- The candidate prefixes the loop of `Table.get_prefix` tries, in order:
`pre` extended by each successive upper-cased character of the attribute. -/
def cands (pre : String) : List Char → List String
  | [] => []
  | c :: rest =>
      let pre' := pre.push c.toUpper
      pre' :: cands pre' rest

/-- The loop body of `Table.get_prefix`: extend the running prefix by the
next upper-cased attribute character and stop at the first candidate not in
the issued set (`None` if the attribute is exhausted first). -/
def prefixScan (names : List String) (pre : String) : List Char → Option String
  | [] => none
  | c :: rest =>
      let pre' := pre.push c.toUpper
      if pre' ∈ names then prefixScan names pre' rest else some pre'

/-- `Table.get_prefix(item, attr)`.  Memoized on the registry key
`f"{item}.{attr}"`; on a miss it starts from `item[0].upper()` (raising
`IndexError` when `item` is empty, exactly as Python's `item[0]` does) and
scans candidates; a found candidate is recorded in the dict and the set
before being returned, and an exhausted scan falls off the end of the
function, returning `None` with the registry untouched.  The Python loop
mutates only at the successful return, so scanning against the entry-time
set and committing once is the identical net effect. -/
def Table.get_prefix (st : TableState) (item attr : String) :
    Except PyExc (Option String × TableState) :=
  match dlookup st.key_prefixes (item ++ "." ++ attr) with
  | some p => .ok (some p, st)
  | none =>
      match item.data with
      | [] => .error .IndexError
      | c0 :: _ =>
          match prefixScan st.key_prefix_names (String.singleton c0.toUpper) attr.data with
          | none => .ok (none, st)
          | some p =>
              .ok (some p,
                   ⟨(item ++ "." ++ attr, p) :: st.key_prefixes,
                    p :: st.key_prefix_names⟩)

/-- A key definition (`class Key(BaseModel)` of the source), with the
source's pydantic defaults.  The Python field `prefix` is a Lean keyword, so
it is embedded as `prefix_`; `seperator` keeps the source's spelling. -/
structure Key : Type where
  attr : String
  prefix_ : Bool := true
  prefix_value : Option String := none
  seperator : String := "#"
deriving DecidableEq, Repr

/-- The immutable part of a `Table`: its declared partition-key scalar type
and optional sort-key scalar type (`Table.partition_key_type`,
`Table.sort_key_type`).  The name, GSI list and boto3 handle play no part in
any claim and are elided. -/
structure TableConfig : Type where
  partition_key_type : ScalarType
  sort_key_type : Option ScalarType
deriving DecidableEq, Repr

/-- One entry of a pydantic model's `model_fields`: the field name, its
declared scalar type, whether `is_optional` holds of its annotation
(`Union[..., None]`), and its default value if one is declared (a field with
no default is required by `model_validate`). -/
structure ModelField : Type where
  name : String
  ftype : ScalarType
  optional : Bool := false
  default : Option PyVal := none
deriving DecidableEq, Repr

/-- A pydantic model class: `__name__` and the ordered `model_fields`. -/
structure ItemModel : Type where
  name : String
  fields : List ModelField
deriving DecidableEq, Repr

/-- `item_model.model_fields[attr]`: the field named `attr`, if any. -/
def findField (m : ItemModel) (attr : String) : Option ModelField :=
  m.fields.find? (fun f => f.name = attr)

/-- An `Item` after construction: the bound `Table` (its immutable part),
the model shape, and the resolved partition/sort key definitions. -/
structure Item : Type where
  table : TableConfig
  item_model : ItemModel
  pk : Key
  sk : Option Key
deriving DecidableEq, Repr

/-- The prefix-resolution tail of `Item.__init__` for one key:
`if key.prefix_value is None: key.prefix_value = table.get_prefix(name, attr)`.
Returns the (possibly updated) key together with the updated registry. -/
def resolveKey (st : TableState) (modelName : String) (k : Key) :
    Except PyExc (Key × TableState) :=
  match k.prefix_value with
  | some _ => .ok (k, st)
  | none =>
      match Table.get_prefix st modelName k.attr with
      | .error e => .error e
      | .ok (p, st') => .ok ({ k with prefix_value := p }, st')

/-- The validation phase of `Item.__init__`, in the source's order: default
the partition key to the shape's first field (`tuple(model_fields)[0]`,
raising `IndexError` on a field-less shape); the pk attribute must exist
(`AttributeError`) and must not be optional (`TypeError`); the same two
checks for the sort key when given; a prefix-using pk requires the table's
partition key type to be `str` (`ValueError`); a prefix-using sk requires
the table's sort key type to be `str` (`ValueError`).  No registry access
happens in this phase. -/
def Item.validate (cfg : TableConfig) (m : ItemModel) (pkOpt skOpt : Option Key) :
    Except PyExc (Key × Option Key) :=
  match (match pkOpt with
         | some k => Except.ok k
         | none =>
             match m.fields with
             | [] => Except.error PyExc.IndexError
             | f :: _ => Except.ok ({ attr := f.name } : Key)) with
  | .error e => .error e
  | .ok pk =>
      match findField m pk.attr with
      | none => .error .AttributeError
      | some fpk =>
          if fpk.optional then .error .TypeError
          else
            match (match skOpt with
                   | none => Except.ok ()
                   | some sk =>
                       match findField m sk.attr with
                       | none => Except.error PyExc.AttributeError
                       | some fsk =>
                           if fsk.optional then Except.error PyExc.TypeError
                           else Except.ok ()) with
            | .error e => .error e
            | .ok _ =>
                if pk.prefix_ = true ∧ cfg.partition_key_type ≠ .sStr then
                  .error .ValueError
                else
                  match skOpt with
                  | none => .ok (pk, none)
                  | some sk =>
                      if sk.prefix_ = true ∧ cfg.sort_key_type ≠ some .sStr then
                        .error .ValueError
                      else .ok (pk, some sk)

/-- `Item.__init__`: validation, then prefix resolution for pk and sk (each
of which may consult and mutate the table's prefix registry).  The result
pairs the constructed item (or the exception) with the registry as it stands
when control leaves the constructor, mirroring in-place mutation of the
Python `Table`. -/
def Item.init (cfg : TableConfig) (st : TableState) (m : ItemModel)
    (pkOpt skOpt : Option Key) : Except PyExc Item × TableState :=
  match Item.validate cfg m pkOpt skOpt with
  | .error e => (.error e, st)
  | .ok (pk, skv) =>
      match resolveKey st m.name pk with
      | .error e => (.error e, st)
      | .ok (pk', st1) =>
          match skv with
          | none => (.ok ⟨cfg, m, pk', none⟩, st1)
          | some sk =>
              match resolveKey st1 m.name sk with
              | .error e => (.error e, st1)
              | .ok (sk', st2) => (.ok ⟨cfg, m, pk', some sk'⟩, st2)

/-- A record instance (a pydantic model instance, or its serialized dict):
an ordered association of field names to values.  On the scalar `str`/`int`
universe, JSON-mode serialization is the identity, so one representation
serves for both the live object and its `model_dump` output. -/
def Record : Type := List (String × PyVal)

instance : DecidableEq Record :=
  inferInstanceAs (DecidableEq (List (String × PyVal)))

/-- `item.model_dump(mode="json")`: the identity on the modelled scalar
record universe. -/
def model_dump (r : Record) : Record := r

/-- `getattr(item, attr)`: field access on a model instance; missing
attributes raise `AttributeError`. -/
def getattr (r : Record) (attr : String) : Except PyExc PyVal :=
  match dlookup r attr with
  | some v => .ok v
  | none => .error .AttributeError

/-- Whether a value inhabits a field's declared scalar type. -/
def typeMatches (t : ScalarType) (v : PyVal) : Bool :=
  pyTypeOf v = t

/-- The core of `model_validate` over a dict: each declared field is read
from the dict (extra dict keys are ignored, pydantic's default); a present
value must match the field's type, an absent field falls back to its default
and raises `ValidationError` when it has none. -/
def validateFields (fields : List ModelField) (d : Record) :
    Except PyExc Record :=
  match fields with
  | [] => .ok []
  | f :: rest =>
      match dlookup d f.name with
      | some v =>
          if typeMatches f.ftype v then
            match validateFields rest d with
            | .ok r => .ok ((f.name, v) :: r)
            | .error e => .error e
          else .error .ValidationError
      | none =>
          match f.default with
          | some dv =>
              match validateFields rest d with
              | .ok r => .ok ((f.name, dv) :: r)
              | .error e => .error e
          | none => .error .ValidationError

/-- `item_model.model_validate(d)`. -/
def model_validate (m : ItemModel) (d : Record) : Except PyExc Record :=
  validateFields m.fields d

/-- `Item._key_value(key, value)`: with a prefix, the f-string
`f"{key.prefix_value}{key.seperator}{value}"`; without one, coercion to the
table's **partition**-key type — the source uses
`self._table.partition_key_type` for both key slots. -/
def Item.key_value (it : Item) (key : Key) (value : PyVal) :
    Except PyExc PyVal :=
  if key.prefix_ then
    .ok (.vStr (optStr key.prefix_value ++ key.seperator ++ pyStr value))
  else
    pyCoerce it.table.partition_key_type value

/-- The record `Item.put_item` assembles before calling the client: the
composed `pk`; then `"A"` as `sk` when the item has no sort key but the
table declares one, or the composed sort key when the item has one; then
`base_item.update(item.model_dump(mode="json"))`, which lets record fields
named `pk`/`sk` overwrite the composed entries. -/
def Item.put_record (it : Item) (item : Record) : Except PyExc Record :=
  match getattr item it.pk.attr with
  | .error e => .error e
  | .ok pkv =>
      match it.key_value it.pk pkv with
      | .error e => .error e
      | .ok pks =>
          let base : Record := [("pk", pks)]
          match it.sk with
          | none =>
              let base' :=
                if it.table.sort_key_type.isSome
                then dictSet base "sk" (.vStr "A") else base
              .ok (dictUpdate base' (model_dump item))
          | some sk =>
              match getattr item sk.attr with
              | .error e => .error e
              | .ok skv =>
                  match it.key_value sk skv with
                  | .error e => .error e
                  | .ok sks =>
                      .ok (dictUpdate (dictSet base "sk" sks) (model_dump item))

/-- A composite DynamoDB primary key: partition value and optional sort
value. -/
def DDBKey : Type := PyVal × Option PyVal

instance : DecidableEq DDBKey :=
  inferInstanceAs (DecidableEq (PyVal × Option PyVal))

/-- The modelled DynamoDB table contents: a map from composite keys to
stored records. -/
def Store : Type := List (DDBKey × Record)

/-- Upsert into the store, replacing any record under the same key. -/
def storeSet (store : Store) (k : DDBKey) (r : Record) : Store :=
  dictSet store k r

/-- The client's `put_item(Item=rec)`: the key attributes `pk` (and `sk`,
when the table declares a sort key) are extracted from the record and must
be present with the declared scalar types, else the client raises
`ClientError`; the record is then upserted under that composite key. -/
def Table.client_put (cfg : TableConfig) (store : Store) (rec : Record) :
    Except PyExc Store :=
  match dlookup rec "pk" with
  | none => .error .ClientError
  | some pkv =>
      if pyTypeOf pkv ≠ cfg.partition_key_type then .error .ClientError
      else
        match cfg.sort_key_type with
        | none => .ok (storeSet store (pkv, none) rec)
        | some t =>
            match dlookup rec "sk" with
            | none => .error .ClientError
            | some skv =>
                if pyTypeOf skv ≠ t then .error .ClientError
                else .ok (storeSet store (pkv, some skv) rec)

/-- The client's `get_item(Key=key)`: the key dict must carry exactly the
table's key schema with the declared types (else `ClientError`); the result
is the stored record under that composite key, if any. -/
def Table.client_get (cfg : TableConfig) (store : Store) (key : Record) :
    Except PyExc (Option Record) :=
  match dlookup key "pk" with
  | none => .error .ClientError
  | some pkv =>
      if pyTypeOf pkv ≠ cfg.partition_key_type then .error .ClientError
      else
        match cfg.sort_key_type with
        | none =>
            if (dlookup key "sk").isSome then .error .ClientError
            else .ok (dlookup store ((pkv, none) : DDBKey))
        | some t =>
            match dlookup key "sk" with
            | none => .error .ClientError
            | some skv =>
                if pyTypeOf skv ≠ t then .error .ClientError
                else .ok (dlookup store ((pkv, some skv) : DDBKey))

/-- `Item.put_item(item)`: assemble the record and delegate to the client. -/
def Item.put_item (it : Item) (store : Store) (item : Record) :
    Except PyExc Store :=
  match it.put_record item with
  | .error e => .error e
  | .ok rec0 => Table.client_put it.table store rec0

/-- The lookup key `Item.get_item` assembles: the composed `pk`; then `"A"`
as `sk` when no raw sort value is given but the table declares a sort key;
or, when a raw sort value is given, `self._key_value(self.sk, sk)` — which
dereferences `self.sk` and therefore raises `AttributeError`
(`None.prefix`) when the item has no sort key configured. -/
def Item.get_key (it : Item) (pk : PyVal) (sk : Option PyVal) :
    Except PyExc Record :=
  match it.key_value it.pk pk with
  | .error e => .error e
  | .ok pks =>
      let key : Record := [("pk", pks)]
      match sk with
      | none =>
          .ok (if it.table.sort_key_type.isSome
               then dictSet key "sk" (.vStr "A") else key)
      | some skv =>
          match it.sk with
          | none => .error .AttributeError
          | some skDef =>
              match it.key_value skDef skv with
              | .error e => .error e
              | .ok sks => .ok (dictSet key "sk" sks)

/-- `Item.get_item(pk, sk)`: compose the key, point-read, then
`model_validate(resp.get("Item", {}))` — a miss validates the empty dict. -/
def Item.get_item (it : Item) (store : Store) (pk : PyVal)
    (sk : Option PyVal) : Except PyExc Record :=
  match it.get_key pk sk with
  | .error e => .error e
  | .ok key =>
      match Table.client_get it.table store key with
      | .error e => .error e
      | .ok resp => model_validate it.item_model (resp.getD [])

/-- One public prefix-assignment call against a table's registry, keeping
the registry that results (an erroring call leaves it untouched). -/
def stepCall (st : TableState) (call : String × String) : TableState :=
  match Table.get_prefix st call.1 call.2 with
  | .ok (_, st') => st'
  | .error _ => st

/-- Registry states reachable from a fresh `Table` by any sequence of
`get_prefix` calls (this is the only code path that mutates the registry). -/
inductive Reachable : TableState → Prop where
  | base : Reachable TableState.empty
  | step : ∀ {st : TableState} (call : String × String),
      Reachable st → Reachable (stepCall st call)

/-- The registry invariant: every recorded prefix is in the issued set, and
the recorded map is injective (distinct registry keys hold distinct
prefixes). -/
def RegistryInv (st : TableState) : Prop :=
  (∀ kv ∈ st.key_prefixes, kv.2 ∈ st.key_prefix_names) ∧
  (∀ kv1 ∈ st.key_prefixes, ∀ kv2 ∈ st.key_prefixes,
      kv1.2 = kv2.2 → kv1.1 = kv2.1)

/-- A record instance conforms to a shape when its entries align one-to-one
with the declared fields, name for name and type for type. -/
def Conforms (fields : List ModelField) (r : Record) : Prop :=
  List.Forall₂ (fun f p => p.1 = f.name ∧ typeMatches f.ftype p.2 = true) fields r

/-- The sort-key existence/optionality checks of `Item.__init__` pass: no
sort key given, or its attribute is declared and non-optional. -/
def SkChecksPass (m : ItemModel) : Option Key → Prop
  | none => True
  | some sk => ∃ fld, findField m sk.attr = some fld ∧ fld.optional = false

/-- The sort-key prefix-compatibility check of `Item.__init__` passes. -/
def SkPrefixOk (cfg : TableConfig) : Option Key → Prop
  | none => True
  | some sk => sk.prefix_ = true → cfg.sort_key_type = some ScalarType.sStr

/- Concrete fixtures used by witnesses and counterexamples. -/

/-- A table with a string partition key and no sort key. -/
def cfgStr : TableConfig := ⟨.sStr, none⟩

/-- A table with a string partition key and an integer sort key. -/
def cfgStrInt : TableConfig := ⟨.sStr, some .sInt⟩

/-- A table with string partition and sort keys. -/
def cfgStrStr : TableConfig := ⟨.sStr, some .sStr⟩

/-- A `User` shape with a required string `id` and a required int `n`. -/
def mUser : ItemModel :=
  ⟨"User", [⟨"id", .sStr, false, none⟩, ⟨"n", .sInt, false, none⟩]⟩

/-- An `Item` binding `mUser` to `cfgStr`, partition key `id` with prefix
`U`. -/
def itUser : Item := ⟨cfgStr, mUser, ⟨"id", true, some "U", "#"⟩, none⟩

/-- A shape whose only field is literally named `pk`. -/
def mShadowPk : ItemModel := ⟨"M", [⟨"pk", .sStr, false, none⟩]⟩

/-- An `Item` whose partition-key attribute is the shape field `pk`. -/
def itShadowPk : Item := ⟨cfgStr, mShadowPk, ⟨"pk", true, some "U", "#"⟩, none⟩

/-- A shape with a required string `a` and a field literally named `sk`. -/
def mShadowSk : ItemModel :=
  ⟨"M", [⟨"a", .sStr, false, none⟩, ⟨"sk", .sStr, false, none⟩]⟩

/-- An `Item` on a sorted table with no sort key configured, over
`mShadowSk`. -/
def itShadowSk : Item := ⟨cfgStrStr, mShadowSk, ⟨"a", true, some "M", "#"⟩, none⟩

/-- A shape with a required string `a` and a required int `s`. -/
def mAS : ItemModel :=
  ⟨"M", [⟨"a", .sStr, false, none⟩, ⟨"s", .sInt, false, none⟩]⟩

/-- An `Item` on `cfgStrInt` whose sort key `s` does not use a prefix. -/
def itSortInt : Item :=
  ⟨cfgStrInt, mAS, ⟨"a", true, some "M", "#"⟩, some ⟨"s", false, none, "#"⟩⟩

/-- An `Item` on `cfgStrStr` over `mUser` with no sort key configured. -/
def itUserSorted : Item := ⟨cfgStrStr, mUser, ⟨"id", true, some "U", "#"⟩, none⟩

end DynamoItems

deriving instance DecidableEq for Except

namespace DynamoItems

section Lemmas

variable {α β : Type} [DecidableEq α]

theorem dlookup_dictSet_self (d : List (α × β)) (k : α) (v : β) :
    dlookup (dictSet d k v) k = some v := by
  induction d with
  | nil => simp [dictSet, dlookup]
  | cons p rest ih =>
      obtain ⟨k0, v0⟩ := p
      by_cases h : k0 = k
      · simp [dictSet, dlookup, h]
      · simp [dictSet, dlookup, h, ih]

theorem dlookup_dictSet_ne (d : List (α × β)) (k k' : α) (v : β)
    (h : k' ≠ k) : dlookup (dictSet d k v) k' = dlookup d k' := by
  have hkk : k ≠ k' := fun hh => h hh.symm
  induction d with
  | nil => simp [dictSet, dlookup, hkk]
  | cons p rest ih =>
      obtain ⟨k0, v0⟩ := p
      by_cases h0 : k0 = k
      · subst h0
        simp [dictSet, dlookup, hkk]
      · simp [dictSet, dlookup, h0, ih]

theorem dlookup_eq_none_of_not_mem (d : List (α × β)) (k : α)
    (h : k ∉ d.map Prod.fst) : dlookup d k = none := by
  induction d with
  | nil => rfl
  | cons p rest ih =>
      simp only [List.map_cons, List.mem_cons, not_or] at h
      have h1 : p.1 ≠ k := fun hh => h.1 hh.symm
      simp [dlookup, h1, ih h.2]

theorem dlookup_isSome_of_mem (d : List (α × β)) (k : α)
    (h : k ∈ d.map Prod.fst) : (dlookup d k).isSome = true := by
  induction d with
  | nil => simp at h
  | cons p rest ih =>
      simp only [List.map_cons, List.mem_cons] at h
      by_cases h0 : p.1 = k
      · simp [dlookup, h0]
      · rcases h with h | h
        · exact absurd h.symm h0
        · simp [dlookup, h0, ih h]

theorem dlookup_mem (d : List (α × β)) (k : α) (v : β)
    (h : dlookup d k = some v) : (k, v) ∈ d := by
  induction d with
  | nil => simp [dlookup] at h
  | cons p rest ih =>
      by_cases h0 : p.1 = k
      · simp only [dlookup, h0, if_pos] at h
        cases h
        have hp : (k, p.2) = p := by
          rw [← h0]
        rw [hp]
        exact List.mem_cons_self _ _
      · simp only [dlookup, h0, if_neg, not_false_iff] at h
        exact List.mem_cons_of_mem _ (ih h)

theorem dlookup_dictUpdate_not_mem (d u : List (α × β)) (k : α)
    (h : k ∉ u.map Prod.fst) :
    dlookup (dictUpdate d u) k = dlookup d k := by
  induction u generalizing d with
  | nil => rfl
  | cons p rest ih =>
      simp only [List.map_cons, List.mem_cons, not_or] at h
      show dlookup (dictUpdate (dictSet d p.1 p.2) rest) k = dlookup d k
      rw [ih _ h.2, dlookup_dictSet_ne _ _ _ _ h.1]

theorem dlookup_dictUpdate_nodup (d u : List (α × β)) (k : α)
    (h : (u.map Prod.fst).Nodup) :
    dlookup (dictUpdate d u) k =
      (match dlookup u k with
       | some v => some v
       | none => dlookup d k) := by
  induction u generalizing d with
  | nil => rfl
  | cons p rest ih =>
      simp only [List.map_cons, List.nodup_cons] at h
      show dlookup (dictUpdate (dictSet d p.1 p.2) rest) k = _
      rw [ih _ h.2]
      by_cases h0 : p.1 = k
      · subst h0
        rw [dlookup_eq_none_of_not_mem rest p.1 h.1]
        simp [dlookup, dlookup_dictSet_self]
      · rw [dlookup_dictSet_ne _ _ _ _ (fun hh => h0 hh.symm)]
        simp [dlookup, h0]

end Lemmas

theorem prefixScan_eq_find (names : List String) (cs : List Char) (pre : String) :
    prefixScan names pre cs
      = (cands pre cs).find? (fun p => decide (p ∉ names)) := by
  induction cs generalizing pre with
  | nil => rfl
  | cons c rest ih =>
      show (if pre.push c.toUpper ∈ names then _ else _) = _
      have hc : cands pre (c :: rest)
          = pre.push c.toUpper :: cands (pre.push c.toUpper) rest := rfl
      by_cases h : pre.push c.toUpper ∈ names
      · rw [if_pos h, hc, List.find?_cons_of_neg _ (by simp [h])]
        exact ih _
      · rw [if_neg h, hc, List.find?_cons_of_pos _ (by simp [h])]

theorem prefixScan_not_mem (names : List String) (cs : List Char) (pre p : String)
    (h : prefixScan names pre cs = some p) : p ∉ names := by
  rw [prefixScan_eq_find] at h
  have := List.find?_some h
  simpa using this

theorem get_prefix_unmemoized (st : TableState) (item attr : String)
    (c : Char) (cs : List Char)
    (hmemo : dlookup st.key_prefixes (item ++ "." ++ attr) = none)
    (hitem : item.data = c :: cs) :
    Table.get_prefix st item attr
      = (match (cands (String.singleton c.toUpper) attr.data).find?
            (fun p => decide (p ∉ st.key_prefix_names)) with
         | none => .ok (none, st)
         | some p =>
             .ok (some p, ⟨(item ++ "." ++ attr, p) :: st.key_prefixes,
                           p :: st.key_prefix_names⟩)) := by
  show (match dlookup st.key_prefixes (item ++ "." ++ attr) with
        | some p => Except.ok (some p, st)
        | none => _) = _
  rw [hmemo, hitem]
  show (match prefixScan st.key_prefix_names (String.singleton c.toUpper) attr.data with
        | none => _ | some p => _) = _
  rw [prefixScan_eq_find]

theorem get_prefix_memoized (st : TableState) (item attr p : String)
    (h : dlookup st.key_prefixes (item ++ "." ++ attr) = some p) :
    Table.get_prefix st item attr = .ok (some p, st) := by
  show (match dlookup st.key_prefixes (item ++ "." ++ attr) with
        | some p => Except.ok (some p, st)
        | none => _) = _
  rw [h]

theorem get_prefix_error_eq (st : TableState) (item attr : String) (e : PyExc)
    (h : Table.get_prefix st item attr = .error e) : e = .IndexError := by
  unfold Table.get_prefix at h
  split at h
  · cases h
  · split at h
    · cases h
      rfl
    · split at h
      · cases h
      · cases h

theorem registryInv_step (st : TableState) (call : String × String)
    (h : RegistryInv st) : RegistryInv (stepCall st call) := by
  obtain ⟨hsub, hinj⟩ := h
  unfold stepCall
  cases hg : Table.get_prefix st call.1 call.2 with
  | error e => exact ⟨hsub, hinj⟩
  | ok res =>
      unfold Table.get_prefix at hg
      split at hg
      · cases hg
        exact ⟨hsub, hinj⟩
      · split at hg
        · cases hg
        · split at hg
          · cases hg
            exact ⟨hsub, hinj⟩
          · rename_i c rest hd p hs
            cases hg
            have hp : p ∉ st.key_prefix_names :=
              prefixScan_not_mem _ _ _ _ hs
            show RegistryInv ⟨(call.1 ++ "." ++ call.2, p) :: st.key_prefixes,
                              p :: st.key_prefix_names⟩
            constructor
            · intro kv hkv
              rw [List.mem_cons] at hkv
              rcases hkv with hkv | hkv
              · rw [hkv]
                exact List.mem_cons_self _ _
              · exact List.mem_cons_of_mem _ (hsub kv hkv)
            · intro kv1 hkv1 kv2 hkv2 hval
              rw [List.mem_cons] at hkv1 hkv2
              rcases hkv1 with hkv1 | hkv1 <;> rcases hkv2 with hkv2 | hkv2
              · rw [hkv1, hkv2]
              · exfalso
                apply hp
                rw [hkv1] at hval
                simp only at hval
                rw [hval]
                exact hsub kv2 hkv2
              · exfalso
                apply hp
                rw [hkv2] at hval
                simp only at hval
                rw [← hval]
                exact hsub kv1 hkv1
              · exact hinj kv1 hkv1 kv2 hkv2 hval

theorem reachable_registryInv (st : TableState) (h : Reachable st) :
    RegistryInv st := by
  induction h with
  | base =>
      exact ⟨fun kv hkv => absurd hkv (List.not_mem_nil kv),
             fun kv1 hkv1 _ _ _ => absurd hkv1 (List.not_mem_nil kv1)⟩
  | step call _ ih => exact registryInv_step _ call ih

theorem conforms_keys (fields : List ModelField) (r : Record)
    (h : Conforms fields r) :
    r.map Prod.fst = fields.map ModelField.name := by
  induction h with
  | nil => rfl
  | cons hfp _ ih =>
      simp only [List.map_cons, ih, List.cons.injEq, and_true]
      exact hfp.1

theorem validateFields_missing (fields : List ModelField) (d : Record)
    (f : ModelField) (hf : f ∈ fields)
    (hd : dlookup d f.name = none) (hdef : f.default = none) :
    validateFields fields d = .error .ValidationError := by
  induction fields with
  | nil => cases hf
  | cons f0 rest ih =>
      rcases List.mem_cons.mp hf with hf0 | hf0
      · subst hf0
        simp only [validateFields, hd, hdef]
      · show (match dlookup d f0.name with
              | some v => _ | none => _) = _
        cases h0 : dlookup d f0.name with
        | some v =>
            by_cases ht : typeMatches f0.ftype v
            · simp only [ht, if_pos, ih hf0]
            · simp [ht]
        | none =>
            cases hdef0 : f0.default with
            | some dv => simp only [ih hf0]
            | none => rfl

theorem validateFields_superset (fields : List ModelField) (r d : Record)
    (hconf : Conforms fields r)
    (hnd : (fields.map ModelField.name).Nodup)
    (hagree : ∀ f ∈ fields, dlookup d f.name = dlookup r f.name) :
    validateFields fields d = .ok r := by
  induction hconf generalizing d with
  | nil => rfl
  | @cons f p fs ps hfp htail ih =>
      simp only [List.map_cons, List.nodup_cons] at hnd
      obtain ⟨hname, htype⟩ := hfp
      have hdr : dlookup d f.name = some p.2 := by
        rw [hagree f (List.mem_cons_self _ _)]
        show (if p.1 = f.name then some p.2 else dlookup ps f.name) = some p.2
        rw [if_pos hname]
      show (match dlookup d f.name with
            | some v => _ | none => _) = _
      rw [hdr]
      simp only [htype, if_pos]
      have hrest : validateFields fs d = .ok ps := by
        apply ih _ hnd.2
        intro f' hf'
        rw [hagree f' (List.mem_cons_of_mem _ hf')]
        show (if p.1 = f'.name then some p.2 else dlookup ps f'.name)
              = dlookup ps f'.name
        rw [if_neg]
        rw [hname]
        intro hh
        apply hnd.1
        rw [hh]
        exact List.mem_map_of_mem _ hf'
      rw [hrest]
      show Except.ok ((f.name, p.2) :: ps) = Except.ok (p :: ps)
      rw [← hname]

theorem get_prefix_ok_of_nonempty (st : TableState) (item attr : String)
    (h : item ≠ "") :
    ∃ r, Table.get_prefix st item attr = .ok r := by
  unfold Table.get_prefix
  split
  · exact ⟨_, rfl⟩
  · split
    · rename_i hd
      exact absurd (String.ext hd) h
    · split
      · exact ⟨_, rfl⟩
      · exact ⟨_, rfl⟩

theorem resolveKey_ok_of_nonempty (st : TableState) (modelName : String)
    (k : Key) (h : modelName ≠ "") :
    ∃ k' st', resolveKey st modelName k = .ok (k', st') := by
  unfold resolveKey
  cases k.prefix_value with
  | some p => exact ⟨_, _, rfl⟩
  | none =>
      obtain ⟨⟨p, st'⟩, hr⟩ := get_prefix_ok_of_nonempty st modelName k.attr h
      rw [hr]
      exact ⟨_, _, rfl⟩

theorem resolveKey_error_eq (st : TableState) (modelName : String) (k : Key)
    (e : PyExc) (h : resolveKey st modelName k = .error e) : e = .IndexError := by
  unfold resolveKey at h
  split at h
  · cases h
  · split at h
    · rename_i e' he
      cases h
      exact get_prefix_error_eq _ _ _ _ he
    · cases h

/-- C1, counterexample: on a fresh `Table`, the first prefix assignment for
type name `User` and attribute `id` yields `UI`, not the claimed `U` — the
loop appends the first attribute character before its first membership
check, so the bare first character of the type name is never a candidate. -/
theorem C1_counterexample :
    Table.get_prefix TableState.empty "User" "id"
      = .ok (some "UI", ⟨[("User.id", "UI")], ["UI"]⟩) ∧
    ("UI" : String) ≠ "U" := by
  exact ⟨rfl, by decide⟩

/-- C1, amended: prefix assignment for an unmemoized pair starts from the
first character of the type name with the attribute's first upper-cased
character already appended, and appends further attribute characters only
while the candidate is already issued.  For `User`/`id` the candidate
sequence is `UI`, `UID`: a fresh assignment yields `UI`, and yields `UID`
when `UI` is already issued. -/
theorem C1_amended (st : TableState)
    (hmemo : dlookup st.key_prefixes "User.id" = none) :
    (("UI" : String) ∉ st.key_prefix_names →
      Table.get_prefix st "User" "id"
        = .ok (some "UI",
               ⟨("User.id", "UI") :: st.key_prefixes,
                "UI" :: st.key_prefix_names⟩)) ∧
    (("UI" : String) ∈ st.key_prefix_names →
     ("UID" : String) ∉ st.key_prefix_names →
      Table.get_prefix st "User" "id"
        = .ok (some "UID",
               ⟨("User.id", "UID") :: st.key_prefixes,
                "UID" :: st.key_prefix_names⟩)) ∧
    cands (String.singleton 'U') "id".data = ["UI", "UID"] := by
  have h1 := get_prefix_unmemoized st "User" "id" 'U' "ser".data hmemo rfl
  have hcands : cands (String.singleton 'U'.toUpper) "id".data
      = ["UI", "UID"] := rfl
  refine ⟨?_, ?_, rfl⟩
  · intro hni
    have hfind : (cands (String.singleton 'U'.toUpper) "id".data).find?
        (fun p => decide (p ∉ st.key_prefix_names)) = some "UI" := by
      rw [hcands, List.find?_cons_of_pos _ (by simp [hni])]
    rw [h1, hfind]
    rfl
  · intro hin hni
    have hfind : (cands (String.singleton 'U'.toUpper) "id".data).find?
        (fun p => decide (p ∉ st.key_prefix_names)) = some "UID" := by
      rw [hcands, List.find?_cons_of_neg _ (by simp [hin]),
          List.find?_cons_of_pos _ (by simp [hni])]
    rw [h1, hfind]
    rfl

/-- C1, witness: the amended statement at the fresh registry yields `UI`. -/
theorem C1_witness :
    Table.get_prefix ⟨[], []⟩ "User" "id"
      = .ok (some "UI", ⟨[("User.id", "UI")], ["UI"]⟩) :=
  (C1_amended ⟨[], []⟩ rfl).1 (by decide)

/-- C7: when the pair has no memoized prefix and every candidate formed from
the type name's first character followed by each successive upper-cased
attribute character is already issued, `get_prefix` returns `None` — no
exception is raised and the registry is left unchanged (no prefix is
issued). -/
theorem C7_exhaustion (st : TableState) (item attr : String)
    (c : Char) (cs : List Char)
    (hmemo : dlookup st.key_prefixes (item ++ "." ++ attr) = none)
    (hitem : item.data = c :: cs)
    (hall : ∀ p ∈ cands (String.singleton c.toUpper) attr.data,
        p ∈ st.key_prefix_names) :
    Table.get_prefix st item attr = .ok (none, st) := by
  rw [get_prefix_unmemoized st item attr c cs hmemo hitem]
  have hfind : (cands (String.singleton c.toUpper) attr.data).find?
      (fun p => decide (p ∉ st.key_prefix_names)) = none := by
    rw [List.find?_eq_none]
    intro p hp
    simp [hall p hp]
  rw [hfind]

/-- C7, witness: with both `UI` and `UID` already issued, assignment for
`User`/`id` returns `None` and leaves the registry as it was. -/
theorem C7_witness :
    Table.get_prefix ⟨[], ["UI", "UID"]⟩ "User" "id"
      = .ok (none, ⟨[], ["UI", "UID"]⟩) :=
  C7_exhaustion _ "User" "id" 'U' "ser".data rfl rfl (by decide)

/-- C4, counterexample: the registry is keyed by the flat string
`f"{item}.{attr}"`, so the two distinct pairs `("A.B", "C")` and
`("A", "B.C")` collide on the key `A.B.C`: after the first pair is issued
`AC`, assignment for the second pair returns the very same prefix `AC` via
the memo — two distinct `(type_name, attribute)` pairs receiving one
prefix. -/
theorem C4_counterexample :
    Table.get_prefix TableState.empty "A.B" "C"
      = .ok (some "AC", ⟨[("A.B.C", "AC")], ["AC"]⟩) ∧
    Table.get_prefix ⟨[("A.B.C", "AC")], ["AC"]⟩ "A" "B.C"
      = .ok (some "AC", ⟨[("A.B.C", "AC")], ["AC"]⟩) ∧
    (("A.B", "C") : String × String) ≠ ("A", "B.C") := by
  exact ⟨rfl, rfl, by decide⟩

/-- C4, amended: for any registry reachable from a fresh `Table` by
`get_prefix` calls, assignment is injective up to the registry-key encoding:
two pairs whose encoded keys `f"{item}.{attr}"` differ (in particular, any
two distinct pairs whose names contain no `.`) never hold the same prefix;
and assignment is memoized — once a pair holds a prefix, calling
`get_prefix` again returns that same prefix and leaves the registry
unchanged, issuing nothing new. -/
theorem C4_amended (st : TableState) (h : Reachable st) :
    (∀ i1 a1 i2 a2 p1 p2,
        dlookup st.key_prefixes (i1 ++ "." ++ a1) = some p1 →
        dlookup st.key_prefixes (i2 ++ "." ++ a2) = some p2 →
        i1 ++ "." ++ a1 ≠ i2 ++ "." ++ a2 → p1 ≠ p2) ∧
    (∀ i a p, dlookup st.key_prefixes (i ++ "." ++ a) = some p →
        Table.get_prefix st i a = .ok (some p, st)) := by
  obtain ⟨_, hinj⟩ := reachable_registryInv st h
  constructor
  · intro i1 a1 i2 a2 p1 p2 h1 h2 hne hpeq
    apply hne
    exact hinj _ (dlookup_mem _ _ _ h1) _ (dlookup_mem _ _ _ h2) hpeq
  · intro i a p hp
    exact get_prefix_memoized st i a p hp

/-- C4, witness: after assigning `User`/`id` on a fresh table, a repeated
call returns the same prefix `UI` and leaves the registry unchanged. -/
theorem C4_witness :
    Table.get_prefix (stepCall TableState.empty ("User", "id")) "User" "id"
      = .ok (some "UI", stepCall TableState.empty ("User", "id")) :=
  (C4_amended _ (Reachable.step _ Reachable.base)).2 "User" "id" "UI" rfl

/-- C2, counterexample: `_key_value` coerces a non-prefixed sort-key value
with the table's **partition**-key type, not the sort-key type the claim
names.  On a table declared `(str, int)`, composing the non-prefixed sort
key for the raw value `5` yields the string `"5"`, whereas coercion to the
declared sort-key type `int` would yield the integer `5`. -/
theorem C2_counterexample :
    itSortInt.get_key (.vStr "x") (some (.vInt 5))
      = .ok [("pk", .vStr "M#x"), ("sk", .vStr "5")] ∧
    itSortInt.table.sort_key_type = some .sInt ∧
    pyCoerce ScalarType.sInt (.vInt 5) = .ok (.vInt 5) ∧
    (PyVal.vStr "5") ≠ (.vInt 5) :=
  ⟨rfl, rfl, rfl, by decide⟩

/-- C2, amended: key composition returns
`"<prefix_value><seperator><raw_value>"` when the key definition uses a
prefix, and otherwise coerces the raw value to the Table's declared
partition-key scalar type — for both the partition and the sort key slot. -/
theorem C2_amended (it : Item) (key : Key) (value : PyVal) :
    (key.prefix_ = true →
      it.key_value key value
        = .ok (.vStr (optStr key.prefix_value ++ key.seperator ++ pyStr value))) ∧
    (key.prefix_ = false →
      it.key_value key value = pyCoerce it.table.partition_key_type value) := by
  constructor
  · intro h
    simp [Item.key_value, h]
  · intro h
    simp [Item.key_value, h]

/-- C2, witness: the two branches of the amended statement, evaluated on
concrete items — a prefixed partition key composes `U#alice`, and a
non-prefixed sort key on a `(str, int)` table coerces `5` to `"5"`. -/
theorem C2_witness :
    itUser.key_value itUser.pk (.vStr "alice") = .ok (.vStr "U#alice") ∧
    itSortInt.key_value ⟨"s", false, none, "#"⟩ (.vInt 5) = .ok (.vStr "5") := by
  constructor
  · exact (C2_amended itUser itUser.pk (.vStr "alice")).1 rfl
  · exact (C2_amended itSortInt ⟨"s", false, none, "#"⟩ (.vInt 5)).2 rfl

/-- C10: on an `Item` constructed without a sort-key definition, `get_item`
with a non-`None` raw sort value raises: when the partition-key composition
succeeds the call fails with `AttributeError` (the composition dereferences
`self.sk`, which is `None`), and in every case the call returns an error —
it neither ignores the supplied value nor performs the read. -/
theorem C10_get_item_sk_without_skdef (it : Item) (store : Store)
    (pk skv : PyVal) (hsk : it.sk = none) :
    (∀ c, it.key_value it.pk pk = .ok c →
        it.get_item store pk (some skv) = .error .AttributeError) ∧
    (∃ e, it.get_item store pk (some skv) = .error e) := by
  have hmain : ∀ c, it.key_value it.pk pk = .ok c →
      it.get_item store pk (some skv) = .error .AttributeError := by
    intro c hc
    unfold Item.get_item Item.get_key
    simp only [hc, hsk]
  refine ⟨hmain, ?_⟩
  cases hv : it.key_value it.pk pk with
  | error e =>
      refine ⟨e, ?_⟩
      unfold Item.get_item Item.get_key
      simp only [hv]
  | ok c => exact ⟨_, hmain c hv⟩

/-- C10, witness: `itUser` has no sort key; a read that supplies a raw sort
value fails with `AttributeError`. -/
theorem C10_witness :
    itUser.get_item [] (.vStr "a") (some (.vStr "z"))
      = .error .AttributeError :=
  (C10_get_item_sk_without_skdef itUser [] (.vStr "a") (.vStr "z") rfl).1
    (.vStr "U#a") rfl

/-- C8: when the composed lookup misses, `get_item` deserializes the empty
mapping into the bound shape (`model_validate({})`), and therefore raises a
`ValidationError` whenever some field of the shape lacks a default — there
is no distinct not-found signal. -/
theorem C8_not_found (it : Item) (store : Store) (pk : PyVal)
    (sk : Option PyVal) (key : Record)
    (hkey : it.get_key pk sk = .ok key)
    (hmiss : Table.client_get it.table store key = .ok none) :
    it.get_item store pk sk = model_validate it.item_model [] ∧
    ((∃ f ∈ it.item_model.fields, f.default = none) →
      it.get_item store pk sk = .error .ValidationError) := by
  have hbase : it.get_item store pk sk = model_validate it.item_model [] := by
    unfold Item.get_item
    rw [hkey]
    show (match Table.client_get it.table store key with
          | .error e => Except.error e
          | .ok resp => model_validate it.item_model (resp.getD [])) = _
    rw [hmiss]
    rfl
  refine ⟨hbase, ?_⟩
  rintro ⟨f, hf, hdef⟩
  rw [hbase]
  exact validateFields_missing it.item_model.fields [] f hf rfl hdef

/-- C8, witness: reading a key absent from the store through `itUser`
(whose `id` field has no default) raises `ValidationError`. -/
theorem C8_witness :
    itUser.get_item [] (.vStr "nope") none = .error .ValidationError := by
  have h := C8_not_found itUser [] (.vStr "nope") none
      [("pk", .vStr "U#nope")] rfl rfl
  exact h.2 ⟨⟨"id", .sStr, false, none⟩, by decide, rfl⟩

/-- C6, counterexample: on a sorted table with no item sort key, `get_item`
does use the placeholder `A`, but `put_item` merges the serialized record
over the composed key afterwards, so a shape field literally named `sk`
overwrites the placeholder — the record sent to the store carries the
field's value `B`, not `A`. -/
theorem C6_counterexample :
    itShadowSk.sk = none ∧
    itShadowSk.table.sort_key_type = some .sStr ∧
    itShadowSk.put_record [("a", .vStr "x"), ("sk", .vStr "B")]
      = .ok [("pk", .vStr "M#x"), ("sk", .vStr "B"), ("a", .vStr "x")] ∧
    itShadowSk.put_item [] [("a", .vStr "x"), ("sk", .vStr "B")]
      = .ok [((.vStr "M#x", some (.vStr "B")),
              [("pk", .vStr "M#x"), ("sk", .vStr "B"), ("a", .vStr "x")])] ∧
    some (PyVal.vStr "B") ≠ some (.vStr "A") :=
  ⟨rfl, rfl, rfl, rfl, by decide⟩

/-- C6, amended: for an `Item` with no sort key configured, `get_item`
always sends the placeholder sort value `A` when the Table declares a
sort-key type and omits `sk` entirely when it declares none; `put_item`
does the same provided the serialized record has no attribute literally
named `sk` (such an attribute overwrites the composed entry). -/
theorem C6_amended (it : Item) (pk : PyVal) (rec r : Record)
    (hsk : it.sk = none) :
    (it.table.sort_key_type.isSome = true →
      it.get_key pk none
        = (match it.key_value it.pk pk with
           | .ok c => .ok [("pk", c), ("sk", .vStr "A")]
           | .error e => .error e)) ∧
    (it.table.sort_key_type = none →
      it.get_key pk none
        = (match it.key_value it.pk pk with
           | .ok c => .ok [("pk", c)]
           | .error e => .error e)) ∧
    ("sk" ∉ rec.map Prod.fst → it.put_record rec = .ok r →
      dlookup r "sk"
        = (if it.table.sort_key_type.isSome then some (.vStr "A") else none)) := by
  refine ⟨?_, ?_, ?_⟩
  · intro h
    unfold Item.get_key
    cases hv : it.key_value it.pk pk with
    | error e => rfl
    | ok c =>
        show Except.ok (if it.table.sort_key_type.isSome then _ else _) = _
        rw [if_pos h]
        rfl
  · intro h
    unfold Item.get_key
    cases hv : it.key_value it.pk pk with
    | error e => rfl
    | ok c =>
        show Except.ok (if it.table.sort_key_type.isSome then _ else _) = _
        rw [h]
        rfl
  · intro hmem hput
    unfold Item.put_record at hput
    rw [hsk] at hput
    split at hput
    · cases hput
    · split at hput
      · cases hput
      · cases hput
        simp only [model_dump]
        rw [dlookup_dictUpdate_not_mem _ _ _ hmem]
        cases hss : it.table.sort_key_type.isSome
        · rfl
        · rfl

/-- C6, witness: `itUserSorted` (sorted table, no item sort key): the read
key carries `sk = "A"`, and a put of a record with no `sk` field stores
`sk = "A"`. -/
theorem C6_witness :
    itUserSorted.get_key (.vStr "a") none
      = .ok [("pk", .vStr "U#a"), ("sk", .vStr "A")] ∧
    dlookup ([("pk", PyVal.vStr "U#a"), ("sk", .vStr "A"), ("id", .vStr "a"),
              ("n", .vInt 3)] : Record) "sk" = some (.vStr "A") := by
  constructor
  · exact ((C6_amended itUserSorted (.vStr "a") [] [] rfl).1 rfl).trans rfl
  · have h := (C6_amended itUserSorted (.vStr "a")
        [("id", .vStr "a"), ("n", .vInt 3)]
        [("pk", .vStr "U#a"), ("sk", .vStr "A"), ("id", .vStr "a"),
         ("n", .vInt 3)] rfl).2.2
    exact (h (by decide) rfl).trans rfl

/-- C3, counterexample: a shape whose partition-key attribute is literally
named `pk` breaks the round trip — `base_item.update(model_dump(...))`
overwrites the composed key with the raw field value, so the record is
stored under the raw value while `get_item` looks up the prefixed value and
misses, ending in `ValidationError` instead of the written record. -/
theorem C3_counterexample :
    itShadowPk.put_item [] [("pk", .vStr "a")]
      = .ok [((.vStr "a", none), [("pk", .vStr "a")])] ∧
    itShadowPk.get_item [((.vStr "a", none), [("pk", .vStr "a")])]
        (.vStr "a") none
      = .error .ValidationError ∧
    (Except.error PyExc.ValidationError
      ≠ (.ok [("pk", PyVal.vStr "a")] : Except PyExc Record)) :=
  ⟨rfl, rfl, by decide⟩

/-- C3, amended: on a Table with a prefix-based string partition key and no
sort key, `put_item` followed by `get_item` with the same raw partition-key
value returns the record written, for every conforming record — provided
no shape field is literally named `pk`. -/
theorem C3_roundtrip (it : Item) (store : Store) (r : Record) (v : PyVal)
    (hpt : it.table.partition_key_type = .sStr)
    (hst : it.table.sort_key_type = none)
    (hpre : it.pk.prefix_ = true)
    (hsk : it.sk = none)
    (hconf : Conforms it.item_model.fields r)
    (hnd : (it.item_model.fields.map ModelField.name).Nodup)
    (hnopk : ∀ f ∈ it.item_model.fields, f.name ≠ "pk")
    (hv : dlookup r it.pk.attr = some v) :
    ∃ store', it.put_item store r = .ok store' ∧
      it.get_item store' v none = .ok r := by
  have hkv : it.key_value it.pk v
      = .ok (.vStr (optStr it.pk.prefix_value ++ it.pk.seperator ++ pyStr v)) := by
    unfold Item.key_value
    rw [if_pos hpre]
  set c : PyVal
    := .vStr (optStr it.pk.prefix_value ++ it.pk.seperator ++ pyStr v) with hcdef
  have hga : getattr r it.pk.attr = .ok v := by
    unfold getattr
    rw [hv]
  have hput_rec : it.put_record r
      = .ok (dictUpdate [("pk", c)] (model_dump r)) := by
    unfold Item.put_record
    rw [hga]
    show (match it.key_value it.pk v with
          | .error e => Except.error e
          | .ok pks => _) = _
    rw [hkv, hsk]
    show Except.ok (dictUpdate
          (if it.table.sort_key_type.isSome then _ else [("pk", c)])
          (model_dump r)) = _
    rw [hst]
    rfl
  have hkeys := conforms_keys _ _ hconf
  have hpk_not : "pk" ∉ r.map Prod.fst := by
    rw [hkeys]
    intro hmem
    obtain ⟨f, hf, hfn⟩ := List.mem_map.mp hmem
    exact hnopk f hf hfn
  have hfinal_pk : dlookup (dictUpdate [("pk", c)] (model_dump r)) "pk"
      = some c := by
    simp only [model_dump]
    rw [dlookup_dictUpdate_not_mem _ _ _ hpk_not]
    rfl
  have hclient : Table.client_put it.table store
      (dictUpdate [("pk", c)] (model_dump r))
      = .ok (storeSet store (c, none) (dictUpdate [("pk", c)] (model_dump r))) := by
    unfold Table.client_put
    rw [hfinal_pk]
    show (if pyTypeOf c ≠ it.table.partition_key_type then _ else _) = _
    rw [if_neg (by rw [hpt]; exact fun hh => hh rfl)]
    rw [hst]
  have hget_key : it.get_key v none = .ok [("pk", c)] := by
    unfold Item.get_key
    rw [hkv]
    show Except.ok (if it.table.sort_key_type.isSome then _ else _) = _
    rw [hst]
    rfl
  have hclient_get : Table.client_get it.table
      (storeSet store (c, none) (dictUpdate [("pk", c)] (model_dump r)))
      [("pk", c)]
      = .ok (some (dictUpdate [("pk", c)] (model_dump r))) := by
    unfold Table.client_get
    show (if pyTypeOf c ≠ it.table.partition_key_type then _ else _) = _
    rw [if_neg (by rw [hpt]; exact fun hh => hh rfl)]
    rw [hst]
    show Except.ok (dlookup (storeSet store (c, none) _) ((c, none) : DDBKey))
          = _
    rw [storeSet, dlookup_dictSet_self]
  have hnd_r : (r.map Prod.fst).Nodup := by
    rw [hkeys]
    exact hnd
  have hvalid : validateFields it.item_model.fields
      (dictUpdate [("pk", c)] (model_dump r)) = .ok r := by
    apply validateFields_superset _ _ _ hconf hnd
    intro f hf
    have hne : f.name ≠ "pk" := hnopk f hf
    simp only [model_dump]
    rw [dlookup_dictUpdate_nodup _ _ _ hnd_r]
    cases hd : dlookup r f.name with
    | some w => rfl
    | none =>
        show dlookup [("pk", c)] f.name = none
        show (if "pk" = f.name then some c else none) = none
        rw [if_neg (fun hh => hne hh.symm)]
  refine ⟨storeSet store (c, none) (dictUpdate [("pk", c)] (model_dump r)),
          ?_, ?_⟩
  · unfold Item.put_item
    rw [hput_rec]
    exact hclient
  · unfold Item.get_item
    rw [hget_key]
    show (match Table.client_get it.table _ [("pk", c)] with
          | .error e => Except.error e
          | .ok resp => model_validate it.item_model (resp.getD [])) = _
    rw [hclient_get]
    exact hvalid

/-- Reduction of `Item.__init__` once validation has succeeded: what remains
is prefix resolution for the two keys. -/
theorem init_of_validate_ok (cfg : TableConfig) (st : TableState)
    (m : ItemModel) (pkOpt skOpt : Option Key) (pk : Key) (skv : Option Key)
    (h : Item.validate cfg m pkOpt skOpt = .ok (pk, skv)) :
    Item.init cfg st m pkOpt skOpt
      = (match resolveKey st m.name pk with
         | .error e => (.error e, st)
         | .ok (pk', st1) =>
             match skv with
             | none => (.ok ⟨cfg, m, pk', none⟩, st1)
             | some sk =>
                 match resolveKey st1 m.name sk with
                 | .error e => (.error e, st1)
                 | .ok (sk', st2) => (.ok ⟨cfg, m, pk', some sk'⟩, st2)) := by
  unfold Item.init
  simp only [h]
  cases hr : resolveKey st m.name pk with
  | error e => rfl
  | ok p =>
      obtain ⟨pk1, st1⟩ := p
      cases skv with
      | none => rfl
      | some sk =>
          cases hr2 : resolveKey st1 m.name sk with
          | error e => rfl
          | ok q => rfl

/-- Reduction of `Item.__init__` when validation fails: the exception is
re-raised and the registry is the entry registry. -/
theorem init_of_validate_error (cfg : TableConfig) (st : TableState)
    (m : ItemModel) (pkOpt skOpt : Option Key) (e : PyExc)
    (h : Item.validate cfg m pkOpt skOpt = .error e) :
    Item.init cfg st m pkOpt skOpt = (.error e, st) := by
  unfold Item.init
  simp only [h]

/-- C5: construction-time validation of `Item.__init__`, in the source's
order — the partition key defaults to the shape's first declared field;
an unknown pk (or provided sk) attribute raises `AttributeError`; an
optional pk (or sk) attribute raises `TypeError`; a prefix-using pk (sk)
on a table whose partition (sort) key type is not `str` raises
`ValueError`; and construction succeeds when the attributes exist, are
non-optional and prefix-compatible (for a shape whose type name is
nonempty). -/
theorem C5_init_validation (cfg : TableConfig) (st : TableState)
    (m : ItemModel) (k : Key) (skOpt : Option Key) :
    (∀ f fs, m.fields = f :: fs →
      Item.init cfg st m none skOpt
        = Item.init cfg st m (some ⟨f.name, true, none, "#"⟩) skOpt) ∧
    (findField m k.attr = none →
      Item.init cfg st m (some k) skOpt = (.error .AttributeError, st)) ∧
    (∀ fld, findField m k.attr = some fld → fld.optional = true →
      Item.init cfg st m (some k) skOpt = (.error .TypeError, st)) ∧
    (∀ fld sk, findField m k.attr = some fld → fld.optional = false →
      skOpt = some sk → findField m sk.attr = none →
      Item.init cfg st m (some k) skOpt = (.error .AttributeError, st)) ∧
    (∀ fld sk fld2, findField m k.attr = some fld → fld.optional = false →
      skOpt = some sk → findField m sk.attr = some fld2 →
      fld2.optional = true →
      Item.init cfg st m (some k) skOpt = (.error .TypeError, st)) ∧
    (∀ fld, findField m k.attr = some fld → fld.optional = false →
      SkChecksPass m skOpt →
      k.prefix_ = true → cfg.partition_key_type ≠ .sStr →
      Item.init cfg st m (some k) skOpt = (.error .ValueError, st)) ∧
    (∀ fld sk fld2, findField m k.attr = some fld → fld.optional = false →
      skOpt = some sk → findField m sk.attr = some fld2 →
      fld2.optional = false →
      (k.prefix_ = true → cfg.partition_key_type = .sStr) →
      sk.prefix_ = true → cfg.sort_key_type ≠ some .sStr →
      Item.init cfg st m (some k) skOpt = (.error .ValueError, st)) ∧
    (∀ fld, findField m k.attr = some fld → fld.optional = false →
      SkChecksPass m skOpt →
      (k.prefix_ = true → cfg.partition_key_type = .sStr) →
      SkPrefixOk cfg skOpt →
      m.name ≠ "" →
      (Item.init cfg st m (some k) skOpt).1.isOk = true) := by
  refine ⟨?_, ?_, ?_, ?_, ?_, ?_, ?_, ?_⟩
  · intro f fs hfields
    unfold Item.init Item.validate
    rw [hfields]
  · intro hf
    apply init_of_validate_error
    unfold Item.validate
    simp [hf]
  · intro fld hf hopt
    apply init_of_validate_error
    unfold Item.validate
    simp [hf, hopt]
  · intro fld sk hf hopt hskopt hfsk
    subst hskopt
    apply init_of_validate_error
    unfold Item.validate
    simp [hf, hopt, hfsk]
  · intro fld sk fld2 hf hopt hskopt hfsk hopt2
    subst hskopt
    apply init_of_validate_error
    unfold Item.validate
    simp [hf, hopt, hfsk, hopt2]
  · intro fld hf hopt hskp hpre hty
    apply init_of_validate_error
    unfold Item.validate
    cases skOpt with
    | none =>
        simp [hf, hopt]
        exact ⟨hpre, hty⟩
    | some sk =>
        obtain ⟨fld2, hfsk, hopt2⟩ := hskp
        simp [hf, hopt, hfsk, hopt2]
        exact fun h1 => absurd (h1 hpre) hty
  · intro fld sk fld2 hf hopt hskopt hfsk hopt2 hcompat hskpre hskty
    subst hskopt
    apply init_of_validate_error
    unfold Item.validate
    simp [hf, hopt, hfsk, hopt2]
    exact fun _ => ⟨hskpre, hskty⟩
  · intro fld hf hopt hskp hcompat hskok hname
    have hval : Item.validate cfg m (some k) skOpt = .ok (k, skOpt) := by
      unfold Item.validate
      cases skOpt with
      | none =>
          simp [hf, hopt]
          exact hcompat
      | some sk =>
          obtain ⟨fld2, hfsk, hopt2⟩ := hskp
          simp [hf, hopt, hfsk, hopt2]
          rw [if_neg (fun hand => absurd (hcompat hand.1) hand.2),
              if_neg (fun hand => absurd (hskok hand.1) hand.2)]
    rw [init_of_validate_ok cfg st m (some k) skOpt k skOpt hval]
    obtain ⟨k1, st1, hr1⟩ := resolveKey_ok_of_nonempty st m.name k hname
    cases skOpt with
    | none =>
        simp only [hr1]
        rfl
    | some sk =>
        obtain ⟨sk1, st2, hr2⟩ := resolveKey_ok_of_nonempty st1 m.name sk hname
        simp only [hr1, hr2]
        rfl

/-- C5, witness: each validation branch evaluated at concrete inputs —
pk defaulting, unknown attribute, optional attribute, prefix/type
incompatibility, and a successful construction. -/
theorem C5_witness :
    Item.init cfgStr TableState.empty mUser none none
      = Item.init cfgStr TableState.empty mUser
          (some ⟨"id", true, none, "#"⟩) none ∧
    Item.init cfgStr TableState.empty mUser
        (some ⟨"zzz", true, none, "#"⟩) none
      = (.error .AttributeError, TableState.empty) ∧
    Item.init cfgStr TableState.empty
        ⟨"User", [⟨"id", .sStr, true, none⟩]⟩
        (some ⟨"id", true, none, "#"⟩) none
      = (.error .TypeError, TableState.empty) ∧
    Item.init ⟨.sInt, none⟩ TableState.empty mUser
        (some ⟨"id", true, none, "#"⟩) none
      = (.error .ValueError, TableState.empty) ∧
    (Item.init cfgStr TableState.empty mUser
        (some ⟨"id", true, none, "#"⟩) none).1.isOk = true := by
  refine ⟨?_, ?_, ?_, ?_, ?_⟩
  · exact (C5_init_validation cfgStr TableState.empty mUser
      ⟨"id", true, none, "#"⟩ none).1
      ⟨"id", .sStr, false, none⟩ [⟨"n", .sInt, false, none⟩] rfl
  · exact (C5_init_validation cfgStr TableState.empty mUser
      ⟨"zzz", true, none, "#"⟩ none).2.1 rfl
  · exact (C5_init_validation cfgStr TableState.empty
      ⟨"User", [⟨"id", .sStr, true, none⟩]⟩
      ⟨"id", true, none, "#"⟩ none).2.2.1 ⟨"id", .sStr, true, none⟩ rfl rfl
  · exact (C5_init_validation ⟨.sInt, none⟩ TableState.empty mUser
      ⟨"id", true, none, "#"⟩ none).2.2.2.2.2.1
      ⟨"id", .sStr, false, none⟩ rfl rfl trivial rfl (by decide)
  · exact (C5_init_validation cfgStr TableState.empty mUser
      ⟨"id", true, none, "#"⟩ none).2.2.2.2.2.2.2
      ⟨"id", .sStr, false, none⟩ rfl rfl trivial (fun _ => rfl) trivial
      (by decide)

/-- C9: `Item.__init__` is atomic with respect to the Table's prefix
registry — whenever construction raises `AttributeError`, `TypeError` or
`ValueError`, the registry is exactly the entry registry, because all
validation checks precede any prefix assignment. -/
theorem C9_atomic (cfg : TableConfig) (st : TableState) (m : ItemModel)
    (pkOpt skOpt : Option Key) (e : PyExc) (st2 : TableState)
    (h : Item.init cfg st m pkOpt skOpt = (.error e, st2))
    (he : e = .AttributeError ∨ e = .TypeError ∨ e = .ValueError) :
    st2 = st := by
  unfold Item.init at h
  split at h
  · injection h with h1 h2
    exact h2.symm
  · split at h
    · injection h with h1 h2
      exact h2.symm
    · split at h
      · injection h with h1 h2
        exact Except.noConfusion h1
      · split at h
        · rename_i hres
          injection h with h1 h2
          injection h1 with h1a
          have he2 := resolveKey_error_eq _ _ _ _ hres
          exfalso
          rw [he2] at h1a
          rcases he with hx | hx | hx <;> rw [hx] at h1a <;> cases h1a
        · injection h with h1 h2
          exact Except.noConfusion h1

/-- C9, witness: a failed construction (unknown attribute) leaves the
fresh registry unchanged. -/
theorem C9_witness :
    Item.init cfgStrInt TableState.empty mUser
        (some ⟨"missing", true, none, "#"⟩) none
      = (.error .AttributeError, TableState.empty) ∧
    TableState.empty = TableState.empty := by
  refine ⟨rfl, ?_⟩
  exact C9_atomic cfgStrInt TableState.empty mUser
    (some ⟨"missing", true, none, "#"⟩) none .AttributeError
    TableState.empty rfl (Or.inl rfl)

/-- C3, witness: the round trip evaluated on `itUser` and a concrete
two-field record. -/
theorem C3_witness :
    ∃ store', itUser.put_item [] [("id", .vStr "a"), ("n", .vInt 3)]
        = .ok store' ∧
      itUser.get_item store' (.vStr "a") none
        = .ok [("id", .vStr "a"), ("n", .vInt 3)] := by
  apply C3_roundtrip itUser [] [("id", .vStr "a"), ("n", .vInt 3)] (.vStr "a")
    rfl rfl rfl rfl ?_ (by decide) (by decide) rfl
  exact .cons ⟨rfl, rfl⟩ (.cons ⟨rfl, rfl⟩ .nil)

end DynamoItems
